import Mathlib

/-!
Shallow embedding of the searchViewSample widget
(postEndpointFactory in src/index.js, requestMixin and stateMixin in
src/mixins.js, createListing and bindTaxToggles in src/search.js,
apiFetch in src/unnamed/part_000), together with proofs about the
behaviour described in the specification.

JavaScript plain objects (query parameter mappings, component state
objects) are embedded as association lists of string keys and primitive
values, kept in insertion order exactly as JS object keys are.
-/

namespace SearchView

/-- Primitive JS values occurring in this code base: strings, integers,
booleans, and the NaN produced by numeric coercions.  NaN compares
unequal to itself, as in JS. -/
inductive Val where
  | vStr (s : String)
  | vInt (n : Int)
  | vBool (b : Bool)
  | vNaN
  deriving Repr, DecidableEq

/-- A JS plain object: association list in key insertion order. -/
abbrev Obj := List (String × Val)

/-- Property lookup on a JS object: first entry with the given key. -/
def lookupV (o : Obj) (k : String) : Option Val :=
  match o with
  | [] => none
  | kv :: rest => if kv.1 = k then some kv.2 else lookupV rest k

/-- Keys of an object, in order. -/
def objKeys (o : Obj) : List String := o.map Prod.fst

/-- The spread / Object.assign merge `\x7b...s, ...p\x7d`: keys of `s` keep
their position (values overridden by `p` where present), keys of `p` not
in `s` are appended in their own order. -/
def jsAssign (s p : Obj) : Obj :=
  (s.map fun kv =>
    match lookupV p kv.1 with
    | some v => (kv.1, v)
    | none => kv) ++
  p.filter fun kv => (lookupV s kv.1).isNone

/-- Truth of `typeof v == 'string' && !v.length`, the condition under which
`setQuery` deletes a parameter. -/
def isEmptyStrVal : Val → Bool
  | .vStr s => s.length = 0
  | _ => false

/-- Parameter effect of `setQuery` (src/index.js): `Object.assign(params,
query)` followed by the loop deleting every key holding an empty string.
The loop iterates with `mapObject`; src/utils is absent from the sources,
so the iteration is modelled from the spec: "deletes any parameter whose
value is an empty string". -/
def setQueryParams (params q : Obj) : Obj :=
  (jsAssign params q).filter fun kv => !(isEmptyStrVal kv.2)

/-- Accumulate the integer value of a digit string. -/
def digitsToNat (l : List Char) : Nat :=
  l.foldl (fun a c => a * 10 + (c.toNat - '0'.toNat)) 0

/-- JS `parseInt`: optional sign, then the longest leading digit run;
`none` models NaN (no digits).  Leading-whitespace skipping is omitted;
the header values reaching it here are produced without padding. -/
def jsParseInt (s : String) : Option Int :=
  let signAndRest : Bool × List Char :=
    match s.data with
    | '-' :: r => (true, r)
    | '+' :: r => (false, r)
    | r => (false, r)
  let digits := signAndRest.2.takeWhile Char.isDigit
  if digits.isEmpty then none
  else some (if signAndRest.1 then -(digitsToNat digits : Int) else (digitsToNat digits : Int))

/-- Numeric coercion applied by the JS `*` operator to a parameter value;
`none` models NaN.  `Number` accepts only a fully numeric string (an empty
string coerces to 0). -/
def jsToNumber : Val → Option Int
  | .vInt n => some n
  | .vBool b => some (if b then 1 else 0)
  | .vNaN => none
  | .vStr s =>
    match s.data with
    | [] => some 0
    | '-' :: r => if r ≠ [] ∧ r.all Char.isDigit then some (-(digitsToNat r : Int)) else none
    | l => if l.all Char.isDigit then some ((digitsToNat l : Int)) else none

/-- The state object owned by a post endpoint through `stateMixin`:
`\x7b isFinished, foundPosts \x7d`.  `foundPosts = none` models NaN (the value
`parseInt` yields on a non-numeric header). -/
structure EState where
  isFinished : Bool
  foundPosts : Option Int
  deriving Repr, DecidableEq

/-- deep-equal on two endpoint state objects.  NaN compares unequal to
everything, itself included, exactly as the `deep-equal` package does. -/
def esEq (a b : EState) : Bool :=
  a.isFinished == b.isFinished &&
    match a.foundPosts, b.foundPosts with
    | some x, some y => x == y
    | _, _ => false

/-- Events a post endpoint publishes on its event bus, plus the console
warning emitted when the total header is missing. -/
inductive Event where
  | stateSet (newSt oldSt : EState)
  | listingFinished
  | warnNoTotal
  deriving Repr, DecidableEq

/-- A post endpoint instance (postEndpointFactory in src/index.js): the
closure variables `page` and `params`, the captured `pathname`, `config`
and `method` arguments, and the stateMixin state. -/
structure Endpoint where
  pathname : String
  method : String
  config : Obj
  page : Nat
  params : Obj
  state : EState
  deriving Repr, DecidableEq

/-- The endpoint as built by `postEndpointFactory(pathname, config)` before
any URL parsing: page 0, params a copy of config, state
`\x7b isFinished: false, foundPosts: 0 \x7d`. -/
def mkEndpoint (pathname meth : String) (config : Obj) : Endpoint :=
  { pathname := pathname, method := meth, config := config, page := 0,
    params := config, state := { isFinished := false, foundPosts := some 0 } }

/-- stateMixin `setState` specialised to the endpoint state object: replace
the state and publish `state-set` with (new, previous) only when deep-equal
reports a change. -/
def setStateE (e : Endpoint) (newSt : EState) : Endpoint × List Event :=
  if esEq newSt e.state then (e, [])
  else ({ e with state := newSt }, [.stateSet newSt e.state])

/-- Printable form of a parameter value inside a query string. -/
def valToString : Val → String
  | .vStr s => s
  | .vInt n => toString n
  | .vBool b => toString b
  | .vNaN => "NaN"

/-- Modelled from the spec: `serializeObject` lives in src/utils, which is
absent from the sources; the spec says `get()` "serializes
`\x7b...params, page\x7d` into a query string".  Embedded as ampersand-joined
key=value pairs. -/
def serializeObject (o : Obj) : String :=
  String.intercalate "&" (o.map fun kv => kv.1 ++ "=" ++ valToString kv.2)

/-- Synchronous part of `get()` (src/index.js): the request string is built
first — incrementing the page counter with `++page` — and only then is
the finished flag checked; when finished, no fetch is issued and the call
returns undefined, but the counter has already advanced. -/
def getSync (e : Endpoint) : Endpoint × Option String :=
  let page1 := e.page + 1
  let request := e.pathname ++ "?" ++
    serializeObject (jsAssign e.params [("page", .vInt (page1 : Int))])
  let e1 : Endpoint := { e with page := page1 }
  if e.state.isFinished then (e1, none) else (e1, some request)

/-- The numeric value `page * this.getParam('per_page')` multiplies by:
the per_page parameter coerced by `*`; `none` models NaN (absent or
non-numeric parameter). -/
def perPageNum (e : Endpoint) : Option Int :=
  (lookupV e.params "per_page").bind jsToNumber

/-- Response handler of `get()` given the value of the `X-WP-TOTAL` header
(`none` = header absent; the guard `!total` also treats an empty string as
missing).  Computes `isFinished = page * per_page >= parseInt(total)` —
false whenever either side is NaN — stores `foundPosts` and `isFinished`
through `setState`, and publishes `listing-finished` when now finished. -/
def getResolve (e : Endpoint) (totalHeader : Option String) : Endpoint × List Event :=
  match totalHeader with
  | none => (e, [.warnNoTotal])
  | some t =>
    if t.length = 0 then (e, [.warnNoTotal])
    else
      let total := jsParseInt t
      let fin : Bool :=
        match perPageNum e, total with
        | some pp, some tot => (e.page : Int) * pp ≥ tot
        | _, _ => false
      let stepRes := setStateE e { isFinished := fin, foundPosts := total }
      (stepRes.1, stepRes.2 ++ if fin then [.listingFinished] else [])

/-- One complete `get()` call whose response (when a fetch is issued)
carries the given `X-WP-TOTAL` header.  Yields the endpoint, the events
published, and whether a fetch was issued (equivalently, whether the call
returned a promise rather than undefined). -/
def getStep (e : Endpoint) (totalHeader : Option String) : Endpoint × List Event × Bool :=
  match getSync e with
  | (e1, none) => (e1, [], false)
  | (e1, some _) =>
    let r := getResolve e1 totalHeader
    (r.1, r.2, true)

/-- Full `setQuery(query, runQuery)` call: reset `page` to 0, clear the
finished flag through `setState`, merge the query and delete empty-string
parameters, then run `get()` immediately when `runQuery` is set. -/
def setQueryStep (e : Endpoint) (q : Obj) (runQuery : Bool) (totalHeader : Option String) :
    Endpoint × List Event × Bool :=
  let e1 : Endpoint := { e with page := 0 }
  let s := setStateE e1 { e1.state with isFinished := false }
  let e3 : Endpoint := { s.1 with params := setQueryParams s.1.params q }
  if runQuery then
    let g := getStep e3 totalHeader
    (g.1, s.2 ++ g.2.1, g.2.2)
  else (e3, s.2, false)

/-- The `clearQuery()` operation: parameters go back to a copy of the
construction-time `config`; nothing else is touched. -/
def clearQuery (e : Endpoint) : Endpoint :=
  { e with params := e.config }

/-- An operation performed on an endpoint after construction, together
with the header of the response its fetch (if any) resolves with. -/
inductive EOp where
  | opSetQuery (q : Obj) (runQuery : Bool) (totalHeader : Option String)
  | opGet (totalHeader : Option String)
  | opClear

/-- Apply one operation to an endpoint. -/
def applyOp (e : Endpoint) : EOp → Endpoint
  | .opSetQuery q r h => (setQueryStep e q r h).1
  | .opGet h => (getStep e h).1
  | .opClear => clearQuery e

/-- Apply a sequence of operations, oldest first. -/
def applyOps (e : Endpoint) (ops : List EOp) : Endpoint :=
  ops.foldl applyOp e

/-- Fold a sequence of setQuery calls — each a query object, a runQuery
flag, and the header of the response its fetch (if any) resolves with —
over an endpoint. -/
def applySetQueries (e : Endpoint) (calls : List (Obj × Bool × Option String)) :
    Endpoint :=
  calls.foldl (fun acc c => (setQueryStep acc c.1 c.2.1 c.2.2).1) e

/-- Iterated `get()` calls whose responses all carry the same total
header, accumulating the published events. -/
def runGets (e : Endpoint) (hdr : Option String) : Nat → Endpoint × List Event
  | 0 => (e, [])
  | n + 1 =>
    let r := runGets e hdr n
    let g := getStep r.1 hdr
    (g.1, r.2 ++ g.2.1)

/-- The keys of an object are pairwise distinct; every object a real JS
program builds satisfies this. -/
def nodupKeys (o : Obj) : Prop := (o.map Prod.fst).Nodup

instance (o : Obj) : Decidable (nodupKeys o) := by
  unfold nodupKeys; infer_instance

/-- No NaN occurs among the object's values. -/
def noNaN (o : Obj) : Bool :=
  o.all fun kv => match kv.2 with | .vNaN => false | _ => true

/-- deep-equal on two primitive values: NaN is unequal to everything,
itself included. -/
def valEq : Val → Val → Bool
  | .vStr a, .vStr b => a == b
  | .vInt a, .vInt b => a == b
  | .vBool a, .vBool b => a == b
  | _, _ => false

/-- deep-equal on two plain objects, as the `deep-equal` package computes
it: every key of either object is present in the other with a deep-equal
value (key order is irrelevant). -/
def objEq (a b : Obj) : Bool :=
  (a.all fun kv =>
    match lookupV b kv.1 with
    | some w => valEq kv.2 w
    | none => false) &&
  (b.all fun kv =>
    match lookupV a kv.1 with
    | some w => valEq kv.2 w
    | none => false)

/-- stateMixin `setState` on a generic state object (src/mixins.js):
merge the partial update over the current state, compare with deep-equal,
and replace the state and publish a `state-set` event only on a change.
Returns the resulting state and whether the event was published. -/
def setStateObj (st data : Obj) : Obj × Bool :=
  let newState := jsAssign st data
  if objEq newState st then (st, false) else (newState, true)

/-- Number of `state-set` events published by two successive `setState`
calls with the same partial update. -/
def doublePubCount (st data : Obj) : Nat :=
  let r1 := setStateObj st data
  let r2 := setStateObj r1.1 data
  (if r1.2 then 1 else 0) + (if r2.2 then 1 else 0)

/-- Association lookup for the request cache. -/
def lookupN (l : List (String × Nat)) (k : String) : Option Nat :=
  match l with
  | [] => none
  | kv :: rest => if kv.1 = k then some kv.2 else lookupN rest k

/-- Value handed to a consumer of the request cache: a fresh clone
(identity `cloneId`) of the response with identity `respId`, so that each
consumer can read the body independently. -/
structure CloneRes where
  respId : Nat
  cloneId : Nat
  deriving Repr, DecidableEq

/-- State of one requestMixin instance (src/mixins.js): the `requests`
cache mapping a request string to the identity of the response its single
apiFetch call produced, the log of apiFetch network calls issued so far
(request string and method — with the constant empty body these are the
composite-key data of apiFetch in src/unnamed/part_000), and counters
supplying fresh response and clone identities. -/
structure CacheState where
  requests : List (String × Nat)
  netLog : List (String × String)
  nextResp : Nat
  nextClone : Nat
  deriving Repr, DecidableEq

/-- A fresh requestMixin instance: empty cache, no network calls yet. -/
def emptyCache : CacheState := ⟨[], [], 0, 0⟩

/-- requestMixin `fetch(request, method)`: on a cache miss, issue the
apiFetch network call (recording it in the log) and cache its response;
in either case hand back a fresh clone of the cached response. -/
def cacheFetch (st : CacheState) (request meth : String) : CloneRes × CacheState :=
  match lookupN st.requests request with
  | some rid =>
    (⟨rid, st.nextClone⟩, { st with nextClone := st.nextClone + 1 })
  | none =>
    (⟨st.nextResp, st.nextClone⟩,
     { requests := (request, st.nextResp) :: st.requests,
       netLog := st.netLog ++ [(request, meth)],
       nextResp := st.nextResp + 1,
       nextClone := st.nextClone + 1 })

/-- Run a sequence of `fetch` calls against one cache, returning the
per-call results in order together with the final cache state. -/
def cacheRun (st : CacheState) : List (String × String) → List CloneRes × CacheState
  | [] => ([], st)
  | c :: rest =>
    let r := cacheFetch st c.1 c.2
    let rr := cacheRun r.2 rest
    (r.1 :: rr.1, rr.2)

/-- The composite request key apiFetch computes
(src/unnamed/part_000: `endpoint + method + JSON.stringify(body)`); at the
requestMixin call site the body is always the default empty object. -/
def compositeKey (request meth : String) : String :=
  request ++ meth ++ "\x7b\x7d"

/-- JS `String.split(',')` at the character-list level. -/
def splitCommaL : List Char → List (List Char)
  | [] => [[]]
  | c :: rest =>
    if c = ',' then [] :: splitCommaL rest
    else
      match splitCommaL rest with
      | [] => [[c]]
      | h :: t => (c :: h) :: t

/-- The `currentQuery` computation of the `tax-set` handler
(src/search.js): split the parameter value on commas and drop the empty
pieces. -/
def splitTax (s : String) : List String :=
  ((splitCommaL s.data).filter (fun p => p ≠ [])).map fun p => String.mk p

/-- `Array.prototype.join(',')` (also the default `join()`) at the
character-list level. -/
def joinL : List (List Char) → List Char
  | [] => []
  | [x] => x
  | x :: y :: t => x ++ ',' :: joinL (y :: t)

/-- `Array.prototype.join(',')` on strings. -/
def joinTax (l : List String) : String :=
  String.mk (joinL (l.map String.data))

/-- Effect of one `tax-set` event for a checkbox control
(`shouldToggle = true`) on the listing endpoint's parameters — the
subscriber body in bindTaxToggles (src/search.js).  `none` models the
TypeError raised when the current parameter value is truthy but not a
string (no `.split` method); `getParam(tax) || ''` turns an absent value,
an empty string, the number 0, `false`, or NaN into `''`.  When the
current and next joined values coincide the handler returns before
touching the query; otherwise it calls `setListingQuery`, whose
`endpoint.setQuery` merges `\x7b [tax]: nextQuery.join(',') \x7d` into the
parameters (the page reset and fetch also performed there do not affect
the parameter mapping). -/
def taxToggleParams (params : Obj) (tax slug : String) : Option Obj :=
  let rawVal : Option String :=
    match lookupV params tax with
    | none => some ""
    | some (.vStr s) => some s
    | some (.vInt n) => if n = 0 then some "" else none
    | some (.vBool b) => if b then none else some ""
    | some .vNaN => some ""
  match rawVal with
  | none => none
  | some v =>
    let currentQuery := splitTax v
    let nextQuery := if slug ∈ currentQuery
      then currentQuery.filter (fun s => s ≠ slug)
      else currentQuery ++ [slug]
    if joinTax currentQuery = joinTax nextQuery then some params
    else some (setQueryParams params [(tax, .vStr (joinTax nextQuery))])

/-- Two successive toggles of the same checkbox slug. -/
def taxToggleTwice (params : Obj) (tax slug : String) : Option Obj :=
  (taxToggleParams params tax slug).bind fun p1 => taxToggleParams p1 tax slug

/-- A configuration field as it arrives after
`Object.assign(\x7b\x7d, listingDefaults, listingConfig)`: absent
(a default may apply), explicitly `undefined` (which still overrides a
default), or a string. -/
inductive StrField where
  | notProvided
  | providedUndef
  | providedStr (s : String)
  deriving Repr, DecidableEq

/-- The template field of a listing configuration: absent, a function, or
some non-function truthy value. -/
inductive TemplateField where
  | absent
  | func
  | nonFunc
  deriving Repr, DecidableEq

/-- The listing configuration data createListing (src/search.js) inspects:
truthiness of `rootEl`, the kind of `template`, and the `pathname` and
`searchParam` fields.  `listingDefaults` supplies `searchParam: 'search'`
when the key is absent; `pathname` has no default. -/
structure ListingConfig where
  rootEl : Bool
  template : TemplateField
  pathname : StrField
  searchParam : StrField
  deriving Repr, DecidableEq

/-- Outcome of a createListing call. -/
inductive CreateResult where
  | threw
  | warned
  | created
  deriving Repr, DecidableEq

/-- createListing (src/search.js): the four validation checks in source
order.  A falsy `rootEl` or a missing/non-function `template` warns and
returns; then `pathname.length` is read — a TypeError when `pathname` is
undefined — and an empty string warns; then `searchParam.length` is read
on the value left after the defaults merge — a TypeError when the key was
explicitly set to undefined — and an empty string warns.  Only `created`
stores a listing in `this.listings`. -/
def createListing (c : ListingConfig) : CreateResult :=
  if !c.rootEl then .warned
  else if c.template ≠ .func then .warned
  else
    match c.pathname with
    | .notProvided => .threw
    | .providedUndef => .threw
    | .providedStr p =>
      if p.length = 0 then .warned
      else
        match (match c.searchParam with
               | .notProvided => some "search"
               | .providedUndef => none
               | .providedStr s => some s) with
        | none => .threw
        | some sp => if sp.length = 0 then .warned else .created

/-- A listing configuration is missing a required field in the sense of
the specification: no root element, no template function, no non-empty
pathname, or no non-empty search parameter name. -/
def missingRequired (c : ListingConfig) : Bool :=
  !c.rootEl || c.template ≠ .func ||
    (match c.pathname with
     | .providedStr p => p.length = 0
     | _ => true) ||
    (match c.searchParam with
     | .notProvided => false
     | .providedUndef => true
     | .providedStr s => s.length = 0)

theorem lookupV_nil (k : String) : lookupV [] k = none := rfl

theorem lookupV_cons (kv : String × Val) (rest : Obj) (k : String) :
    lookupV (kv :: rest) k = if kv.1 = k then some kv.2 else lookupV rest k := rfl

theorem lookupV_append (a b : Obj) (k : String) :
    lookupV (a ++ b) k = (lookupV a k).or (lookupV b k) := by
  induction a with
  | nil => simp [lookupV_nil, Option.or]
  | cons kv rest ih =>
    by_cases h : kv.1 = k
    · simp [lookupV_cons, h, Option.or]
    · simp [lookupV_cons, h, ih]

theorem lookupV_mem {o : Obj} {k : String} {v : Val} (h : lookupV o k = some v) :
    (k, v) ∈ o := by
  induction o with
  | nil => simp [lookupV_nil] at h
  | cons kv rest ih =>
    rw [lookupV_cons] at h
    by_cases hk : kv.1 = k
    · simp [hk] at h
      have : (k, v) = kv := by
        rw [← hk, ← h]
      rw [this]
      exact List.mem_cons_self _ _
    · simp [hk] at h
      exact List.mem_cons_of_mem _ (ih h)

theorem lookupV_isSome_of_mem {o : Obj} {kv : String × Val} (h : kv ∈ o) :
    (lookupV o kv.1).isSome := by
  induction o with
  | nil => simp at h
  | cons hd rest ih =>
    rcases List.mem_cons.mp h with h1 | h2
    · subst h1; simp [lookupV_cons]
    · rw [lookupV_cons]
      by_cases hk : hd.1 = kv.1 <;> simp [hk, ih h2]

theorem lookupV_eq_of_mem_nodup {o : Obj} {kv : String × Val}
    (hn : nodupKeys o) (h : kv ∈ o) : lookupV o kv.1 = some kv.2 := by
  induction o with
  | nil => simp at h
  | cons hd rest ih =>
    have hn2 : nodupKeys rest := (List.nodup_cons.mp hn).2
    have hnot : hd.1 ∉ rest.map Prod.fst := (List.nodup_cons.mp hn).1
    rcases List.mem_cons.mp h with h1 | h2
    · subst h1; simp [lookupV_cons]
    · rw [lookupV_cons]
      by_cases hk : hd.1 = kv.1
      · exact absurd (hk ▸ List.mem_map_of_mem Prod.fst h2) hnot
      · simp [hk, ih hn2 h2]

theorem lookupV_filter_key (p : Obj) (c : String → Bool) (k : String) :
    lookupV (p.filter fun kv => c kv.1) k = if c k then lookupV p k else none := by
  induction p with
  | nil => simp [lookupV_nil]
  | cons kv rest ih =>
    by_cases hk : kv.1 = k
    · subst hk
      by_cases hc : c kv.1 <;> simp [List.filter_cons, hc, lookupV_cons, ih]
    · by_cases hc : c kv.1 <;> simp [List.filter_cons, hc, lookupV_cons, hk, ih]

theorem lookupV_mapOverride (s p : Obj) (k : String) :
    lookupV (s.map fun kv =>
      match lookupV p kv.1 with
      | some v => (kv.1, v)
      | none => kv) k =
      match lookupV s k with
      | some w => some ((lookupV p k).getD w)
      | none => none := by
  induction s with
  | nil => simp [lookupV_nil]
  | cons kv rest ih =>
    have hfst : (match lookupV p kv.1 with
        | some v => (kv.1, v)
        | none => kv).1 = kv.1 := by
      rcases lookupV p kv.1 with _ | w <;> rfl
    by_cases hk : kv.1 = k
    · subst hk
      rcases hp : lookupV p kv.1 with _ | w <;>
        simp [List.map_cons, hp, lookupV_cons]
    · rcases hp : lookupV p kv.1 with _ | w <;>
        simp [List.map_cons, hp, lookupV_cons, hk, ih, lookupV_nil]

theorem lookupV_jsAssign (s p : Obj) (k : String) :
    lookupV (jsAssign s p) k = (lookupV p k).or (lookupV s k) := by
  unfold jsAssign
  rw [lookupV_append, lookupV_mapOverride,
    lookupV_filter_key p (fun key => (lookupV s key).isNone) k]
  rcases hs : lookupV s k with _ | w <;> rcases hp : lookupV p k with _ | v <;>
    simp [Option.or]

theorem setStateE_frame (e : Endpoint) (n : EState) :
    (setStateE e n).1.page = e.page ∧ (setStateE e n).1.params = e.params ∧
    (setStateE e n).1.config = e.config := by
  unfold setStateE; split <;> exact ⟨rfl, rfl, rfl⟩

theorem getResolve_frame (e : Endpoint) (h : Option String) :
    (getResolve e h).1.page = e.page ∧ (getResolve e h).1.params = e.params ∧
    (getResolve e h).1.config = e.config := by
  unfold getResolve setStateE
  rcases h with _ | t
  · exact ⟨rfl, rfl, rfl⟩
  · dsimp only
    split
    · exact ⟨rfl, rfl, rfl⟩
    · split <;> exact ⟨rfl, rfl, rfl⟩

theorem getSync_fst (e : Endpoint) : (getSync e).1 = { e with page := e.page + 1 } := by
  unfold getSync
  dsimp only
  split <;> rfl

theorem getStep_finished (e : Endpoint) (h : Option String)
    (hf : e.state.isFinished = true) :
    getStep e h = ({ e with page := e.page + 1 }, [], false) := by
  unfold getStep getSync
  dsimp only
  rw [hf]
  rfl

theorem getStep_frame (e : Endpoint) (h : Option String) :
    (getStep e h).1.page = e.page + 1 ∧ (getStep e h).1.params = e.params ∧
    (getStep e h).1.config = e.config := by
  unfold getStep
  rcases hg : getSync e with ⟨e1, req⟩
  have h1 : e1 = { e with page := e.page + 1 } := by
    have h2 := getSync_fst e
    rw [hg] at h2
    exact h2
  rcases req with _ | r
  · rw [h1]
    exact ⟨rfl, rfl, rfl⟩
  · dsimp only
    rw [h1]
    exact ⟨(getResolve_frame _ h).1, (getResolve_frame _ h).2.1,
      (getResolve_frame _ h).2.2⟩

theorem setQueryStep_config (e : Endpoint) (q : Obj) (r : Bool) (h : Option String) :
    (setQueryStep e q r h).1.config = e.config := by
  unfold setQueryStep
  dsimp only
  have hs := setStateE_frame { e with page := 0 }
    { ({ e with page := 0 } : Endpoint).state with isFinished := false }
  split
  · rw [(getStep_frame _ _).2.2]
    exact hs.2.2
  · exact hs.2.2

theorem applyOp_config (e : Endpoint) (op : EOp) : (applyOp e op).config = e.config := by
  cases op with
  | opSetQuery q r h => exact setQueryStep_config e q r h
  | opGet h => exact (getStep_frame e h).2.2
  | opClear => rfl

theorem applyOps_config (e : Endpoint) (ops : List EOp) :
    (applyOps e ops).config = e.config := by
  induction ops generalizing e with
  | nil => rfl
  | cons op rest ih =>
    show (applyOps (applyOp e op) rest).config = e.config
    rw [ih, applyOp_config]

/-- C9: in every reachable endpoint state, `clearQuery()` resets the
parameter mapping to the original construction-time configuration and
leaves the page counter and the finished/found-posts state unchanged. -/
theorem clearQuery_resets_params_only (pathname meth : String) (config : Obj)
    (ops : List EOp) :
    (clearQuery (applyOps (mkEndpoint pathname meth config) ops)).params = config ∧
    (clearQuery (applyOps (mkEndpoint pathname meth config) ops)).page =
      (applyOps (mkEndpoint pathname meth config) ops).page ∧
    (clearQuery (applyOps (mkEndpoint pathname meth config) ops)).state =
      (applyOps (mkEndpoint pathname meth config) ops).state := by
  refine ⟨?_, rfl, rfl⟩
  show (applyOps (mkEndpoint pathname meth config) ops).config = config
  rw [applyOps_config]
  rfl

/-- C1 counterexample: on an endpoint that has reached the finished state
(per_page 12, total 30, three pages fetched), a further `get()` still
advances the page counter, refuting "leaves the endpoint's page counter
... unchanged". -/
theorem get_finished_page_counterexample :
    (applyOps (mkEndpoint "wp/v2/posts" "GET" [("per_page", Val.vInt 12)])
      [.opGet (some "30"), .opGet (some "30"), .opGet (some "30")]).state.isFinished
      = true ∧
    (getStep (applyOps (mkEndpoint "wp/v2/posts" "GET" [("per_page", Val.vInt 12)])
      [.opGet (some "30"), .opGet (some "30"), .opGet (some "30")]) (some "30")).1.page ≠
    (applyOps (mkEndpoint "wp/v2/posts" "GET" [("per_page", Val.vInt 12)])
      [.opGet (some "30"), .opGet (some "30"), .opGet (some "30")]).page := by
  decide

/-- C1 amended: calling `get()` on a finished endpoint issues no fetch
(hence no network call), returns no value, publishes no event, and leaves
the state and parameters unchanged — but the page counter is still
incremented, because `++page` runs while the request string is built,
before the finished check. -/
theorem get_on_finished_endpoint (e : Endpoint) (hdr : Option String)
    (hf : e.state.isFinished = true) :
    (getStep e hdr).2.2 = false ∧
    (getStep e hdr).2.1 = [] ∧
    (getStep e hdr).1.state = e.state ∧
    (getStep e hdr).1.params = e.params ∧
    (getStep e hdr).1.page = e.page + 1 := by
  rw [getStep_finished e hdr hf]
  exact ⟨rfl, rfl, rfl, rfl, rfl⟩

/-- Witness for the C1 theorem at a concrete finished endpoint. -/
theorem get_on_finished_endpoint_witness :
    ((⟨"wp/v2/posts", "GET", [], 3, [], ⟨true, some 30⟩⟩ : Endpoint).state.isFinished
      = true) ∧
    ((getStep (⟨"wp/v2/posts", "GET", [], 3, [], ⟨true, some 30⟩⟩ : Endpoint) none).2.2
      = false ∧
     (getStep (⟨"wp/v2/posts", "GET", [], 3, [], ⟨true, some 30⟩⟩ : Endpoint) none).2.1
      = [] ∧
     (getStep (⟨"wp/v2/posts", "GET", [], 3, [], ⟨true, some 30⟩⟩ : Endpoint) none).1.state
      = (⟨"wp/v2/posts", "GET", [], 3, [], ⟨true, some 30⟩⟩ : Endpoint).state ∧
     (getStep (⟨"wp/v2/posts", "GET", [], 3, [], ⟨true, some 30⟩⟩ : Endpoint) none).1.params
      = (⟨"wp/v2/posts", "GET", [], 3, [], ⟨true, some 30⟩⟩ : Endpoint).params ∧
     (getStep (⟨"wp/v2/posts", "GET", [], 3, [], ⟨true, some 30⟩⟩ : Endpoint) none).1.page
      = (⟨"wp/v2/posts", "GET", [], 3, [], ⟨true, some 30⟩⟩ : Endpoint).page + 1) :=
  ⟨rfl, get_on_finished_endpoint _ none rfl⟩

theorem setQueryStep_page_noRun (e : Endpoint) (q : Obj) (hdr : Option String) :
    (setQueryStep e q false hdr).1.page = 0 := by
  unfold setQueryStep
  dsimp only
  exact (setStateE_frame _ _).1

theorem setQueryStep_page_run (e : Endpoint) (q : Obj) (hdr : Option String) :
    (setQueryStep e q true hdr).1.page = 1 := by
  unfold setQueryStep
  simp only [reduceIte]
  rw [(getStep_frame _ _).1, (setStateE_frame _ _).1]

/-- C2 counterexample: with the default `runQuery = true`, the `get()`
performed inside `setQuery` has already advanced the page counter by the
time `setQuery` returns, so `getPage()` is not 0. -/
theorem getPage_after_setQuery_counterexample :
    (setQueryStep (mkEndpoint "wp/v2/posts" "GET" [("per_page", Val.vInt 12)])
      [("s", Val.vStr "dog")] true (some "30")).1.page ≠ 0 := by
  decide

/-- C2 amended: `getPage()` returns 0 immediately after a
`setQuery(query, false)` call; after a `setQuery(query, true)` call (the
default) the automatic `get()` has already advanced it to 1; and every
`get()` call made while not finished increases the page counter by
exactly 1. -/
theorem getPage_after_setQuery (e f : Endpoint) (q : Obj)
    (hdr hdr2 hdr3 : Option String) (hf : f.state.isFinished = false) :
    (setQueryStep e q false hdr).1.page = 0 ∧
    (setQueryStep e q true hdr2).1.page = 1 ∧
    (getStep f hdr3).1.page = f.page + 1 :=
  ⟨setQueryStep_page_noRun e q hdr, setQueryStep_page_run e q hdr2,
   (getStep_frame f hdr3).1⟩

/-- Witness for the C2 theorem at concrete endpoints. -/
theorem getPage_after_setQuery_witness :
    ((mkEndpoint "wp/v2/posts" "GET" []).state.isFinished = false) ∧
    ((setQueryStep (mkEndpoint "wp/v2/posts" "GET" []) [("s", Val.vStr "dog")]
        false none).1.page = 0 ∧
     (setQueryStep (mkEndpoint "wp/v2/posts" "GET" []) [("s", Val.vStr "dog")]
        true none).1.page = 1 ∧
     (getStep (mkEndpoint "wp/v2/posts" "GET" []) none).1.page =
       (mkEndpoint "wp/v2/posts" "GET" []).page + 1) :=
  ⟨rfl, getPage_after_setQuery _ _ _ none none none rfl⟩

theorem setQueryStep_params (e : Endpoint) (q : Obj) (r : Bool) (h : Option String) :
    (setQueryStep e q r h).1.params = setQueryParams e.params q := by
  unfold setQueryStep
  cases r
  · rw [if_neg (by simp)]
    rw [(setStateE_frame _ _).2.1]
  · rw [if_pos rfl]
    rw [(getStep_frame _ _).2.1, (setStateE_frame _ _).2.1]

theorem setQueryParams_not_empty (p q : Obj) (k : String) :
    lookupV (setQueryParams p q) k ≠ some (.vStr "") := by
  intro h
  have hmem := lookupV_mem h
  unfold setQueryParams at hmem
  have hcond := (List.mem_filter.mp hmem).2
  simp [isEmptyStrVal] at hcond

theorem setQueryParams_all_nonempty (p q : Obj) :
    ∀ kv ∈ setQueryParams p q, kv.2 ≠ Val.vStr "" := by
  intro kv hmem heq
  unfold setQueryParams at hmem
  have hcond := (List.mem_filter.mp hmem).2
  rw [heq] at hcond
  simp [isEmptyStrVal] at hcond

/-- C3: after any nonempty sequence of `setQuery` calls — whatever
empty-string values the query objects carry, and whatever the parameters
held before — the endpoint's parameter mapping contains no key whose
value is the empty string. -/
theorem setQuery_never_keeps_empty_values (e : Endpoint)
    (calls : List (Obj × Bool × Option String)) (hne : calls ≠ []) :
    (∀ k, lookupV (applySetQueries e calls).params k ≠ some (.vStr "")) ∧
    (∀ kv ∈ (applySetQueries e calls).params, kv.2 ≠ Val.vStr "") := by
  induction calls generalizing e with
  | nil => exact absurd rfl hne
  | cons c rest ih =>
    cases rest with
    | nil =>
      have hp : (applySetQueries e [c]).params = setQueryParams e.params c.1 := by
        show ((setQueryStep e c.1 c.2.1 c.2.2).1).params = _
        exact setQueryStep_params e c.1 c.2.1 c.2.2
      rw [hp]
      exact ⟨setQueryParams_not_empty e.params c.1,
        setQueryParams_all_nonempty e.params c.1⟩
    | cons c2 t =>
      exact ih (setQueryStep e c.1 c.2.1 c.2.2).1 (by simp)

/-- Witness for the C3 theorem: one setQuery call carrying an empty-string
value on an endpoint whose config also holds one. -/
theorem setQuery_never_keeps_empty_values_witness :
    ([(([("s", Val.vStr "")], false, none) : Obj × Bool × Option String)] ≠
      ([] : List (Obj × Bool × Option String))) ∧
    lookupV (applySetQueries
      (mkEndpoint "wp/v2/posts" "GET" [("cat", Val.vStr "")])
      [(([("s", Val.vStr "")], false, none) : Obj × Bool × Option String)]).params "s" ≠
      some (.vStr "") :=
  ⟨by decide,
   (setQuery_never_keeps_empty_values
     (mkEndpoint "wp/v2/posts" "GET" [("cat", Val.vStr "")])
     [(([("s", Val.vStr "")], false, none) : Obj × Bool × Option String)]
     (by decide)).1 "s"⟩

theorem setStateE_isFinished (e : Endpoint) (n : EState) :
    (setStateE e n).1.state.isFinished = n.isFinished := by
  unfold setStateE
  split
  · next h =>
    unfold esEq at h
    have h1 := (Bool.and_eq_true _ _).mp h |>.1
    simp only [beq_iff_eq] at h1
    exact h1.symm
  · rfl

theorem getResolve_isFinished (e : Endpoint) (p t : Int) (s : String)
    (hpp : perPageNum e = some p) (hs : s.length ≠ 0) (ht : jsParseInt s = some t) :
    ((getResolve e (some s)).1.state.isFinished = true ↔ (e.page : Int) * p ≥ t) := by
  unfold getResolve
  dsimp only
  rw [if_neg hs, hpp, ht]
  dsimp only
  rw [setStateE_isFinished]
  exact decide_eq_true_iff

theorem getStep_notFinished (e : Endpoint) (hdr : Option String)
    (hnf : e.state.isFinished = false) :
    (getStep e hdr).1 = (getResolve { e with page := e.page + 1 } hdr).1 ∧
    (getStep e hdr).2.1 = (getResolve { e with page := e.page + 1 } hdr).2 ∧
    (getStep e hdr).2.2 = true := by
  unfold getStep getSync
  dsimp only
  rw [hnf, if_neg (by simp)]
  exact ⟨rfl, rfl, rfl⟩

/-- C6: while the endpoint is not finished, a `get()` whose response
carries a parseable total header sets `isFinished` to
`(page * per_page >= total)` (with the already-incremented page); and on
the mocked endpoint with per_page 12 and total 30, pages 1 and 2 leave
`isFinished` false, page 3 turns it true, and the `listing-finished`
event is published exactly once over five consecutive `get()` calls. -/
theorem get_isFinished_rule (e : Endpoint) (p t : Int) (s : String)
    (hnf : e.state.isFinished = false)
    (hpp : lookupV e.params "per_page" = some (.vInt p))
    (hs : s.length ≠ 0)
    (ht : jsParseInt s = some t) :
    ((getStep e (some s)).1.state.isFinished = true ↔ ((e.page : Int) + 1) * p ≥ t) ∧
    ((runGets (mkEndpoint "wp/v2/posts" "GET" [("per_page", Val.vInt 12)])
        (some "30") 1).1.state.isFinished = false ∧
     (runGets (mkEndpoint "wp/v2/posts" "GET" [("per_page", Val.vInt 12)])
        (some "30") 2).1.state.isFinished = false ∧
     (runGets (mkEndpoint "wp/v2/posts" "GET" [("per_page", Val.vInt 12)])
        (some "30") 3).1.state.isFinished = true ∧
     ((runGets (mkEndpoint "wp/v2/posts" "GET" [("per_page", Val.vInt 12)])
        (some "30") 5).2.filter (fun ev => ev == Event.listingFinished)).length = 1) := by
  constructor
  · have hstep := getStep_notFinished e (some s) hnf
    rw [hstep.1]
    have hpp2 : perPageNum { e with page := e.page + 1 } = some p := by
      unfold perPageNum
      rw [show ({ e with page := e.page + 1 } : Endpoint).params = e.params from rfl, hpp]
      rfl
    have := getResolve_isFinished { e with page := e.page + 1 } p t s hpp2 hs ht
    rw [this]
    constructor
    · intro h
      simpa using h
    · intro h
      simpa using h
  · exact ⟨by decide, by decide, by decide, by decide⟩

/-- Witness for the C6 theorem: first page of the mocked endpoint
(page 0, per_page 12, total "30"). -/
theorem get_isFinished_rule_witness :
    ((mkEndpoint "wp/v2/posts" "GET"
        [("per_page", Val.vInt 12)]).state.isFinished = false) ∧
    ((getStep (mkEndpoint "wp/v2/posts" "GET" [("per_page", Val.vInt 12)])
        (some "30")).1.state.isFinished = true ↔
      (((mkEndpoint "wp/v2/posts" "GET"
        [("per_page", Val.vInt 12)]).page : Int) + 1) * 12 ≥ 30) :=
  ⟨rfl,
   (get_isFinished_rule (mkEndpoint "wp/v2/posts" "GET" [("per_page", Val.vInt 12)])
     12 30 "30" rfl rfl (by decide) (by decide)).1⟩

/-- C8 counterexample: a listing configuration with a root element and a
template function but no pathname at all makes createListing throw a
TypeError (reading `.length` of undefined), refuting "createListing never
throws". -/
theorem createListing_throws_counterexample :
    createListing
      { rootEl := true, template := .func, pathname := .notProvided,
        searchParam := .notProvided } = .threw ∧
    missingRequired
      { rootEl := true, template := .func, pathname := .notProvided,
        searchParam := .notProvided } = true := by
  decide

/-- C8 amended: when the pathname is provided as a string and the search
parameter is not explicitly undefined, a configuration missing a required
field makes createListing emit a warning and store no listing; but when
the pathname is absent (or the search parameter explicitly undefined)
while the earlier checks pass, createListing throws a TypeError instead
of warning. -/
theorem createListing_missing_field (c c2 : ListingConfig) (p : String)
    (hp : c.pathname = .providedStr p)
    (hsp : c.searchParam ≠ .providedUndef)
    (hm : missingRequired c = true)
    (h2r : c2.rootEl = true) (h2t : c2.template = .func)
    (h2p : c2.pathname = .notProvided ∨ c2.pathname = .providedUndef) :
    createListing c = .warned ∧ createListing c2 = .threw := by
  constructor
  · unfold createListing missingRequired at *
    rcases c with ⟨r, tp, pn, sp⟩
    dsimp only at hp hm ⊢
    subst hp
    cases r
    · rfl
    · cases tp
      · rfl
      · by_cases hpl : p.length = 0
        · simp [hpl]
        · cases sp with
          | notProvided => simp [hpl] at hm
          | providedUndef => exact absurd rfl hsp
          | providedStr s =>
            have hsl : s.length = 0 := by simpa [hpl] using hm
            simp [hpl, hsl]
      · rfl
  · unfold createListing
    rcases c2 with ⟨r2, tp2, pn2, sp2⟩
    dsimp only at h2r h2t h2p ⊢
    subst h2r
    subst h2t
    rcases h2p with h | h <;> subst h <;> rfl

/-- Witness for the C8 theorem: an empty-string pathname warns; an absent
pathname throws. -/
theorem createListing_missing_field_witness :
    (({ rootEl := true, template := .func, pathname := .providedStr "",
        searchParam := .notProvided } : ListingConfig).pathname =
      .providedStr "") ∧
    (createListing
      { rootEl := true, template := .func, pathname := .providedStr "",
        searchParam := .notProvided } = .warned ∧
     createListing
      { rootEl := true, template := .func, pathname := .notProvided,
        searchParam := .notProvided } = .threw) :=
  ⟨rfl,
   createListing_missing_field
     { rootEl := true, template := .func, pathname := .providedStr "",
       searchParam := .notProvided }
     { rootEl := true, template := .func, pathname := .notProvided,
       searchParam := .notProvided }
     "" rfl (by decide) (by decide) rfl rfl (Or.inl rfl)⟩

theorem valEq_refl (v : Val) (h : v ≠ .vNaN) : valEq v v = true := by
  cases v <;> simp [valEq] at h ⊢

theorem noNaN_spec (o : Obj) : noNaN o = true ↔ ∀ kv ∈ o, kv.2 ≠ Val.vNaN := by
  unfold noNaN
  rw [List.all_eq_true]
  constructor
  · intro h kv hm heq
    have h2 := h kv hm
    rw [heq] at h2
    simp at h2
  · intro h kv hm
    rcases hv : kv.2 with s | n | b | _
    · rfl
    · rfl
    · rfl
    · exact absurd hv (h kv hm)

theorem keys_mem_isSome {o : Obj} {k : String} (h : k ∈ objKeys o) :
    (lookupV o k).isSome := by
  rcases List.mem_map.mp h with ⟨kv, hkv, hfst⟩
  rw [← hfst]
  exact lookupV_isSome_of_mem hkv

theorem mapOverride_keys (s p : Obj) :
    (s.map fun kv =>
      match lookupV p kv.1 with
      | some v => (kv.1, v)
      | none => kv).map Prod.fst = s.map Prod.fst := by
  rw [List.map_map]
  apply List.map_congr_left
  intro kv _
  rcases hlp : lookupV p kv.1 with _ | w <;> simp [hlp]

theorem jsAssign_nodup (s p : Obj) (hs : nodupKeys s) (hp : nodupKeys p) :
    nodupKeys (jsAssign s p) := by
  unfold nodupKeys jsAssign at *
  rw [List.map_append, List.nodup_append]
  refine ⟨by rw [mapOverride_keys]; exact hs, ?_, ?_⟩
  · exact List.Nodup.sublist (List.Sublist.map _ (List.filter_sublist _)) hp
  · intro k hk1 hk2
    rw [mapOverride_keys] at hk1
    rcases List.mem_map.mp hk2 with ⟨kv, hkv, hfst⟩
    have hcond := (List.mem_filter.mp hkv).2
    rw [hfst] at hcond
    have hsome := keys_mem_isSome hk1
    rw [Option.isNone_iff_eq_none.mp hcond] at hsome
    simp at hsome

theorem jsAssign_noNaN (s p : Obj) (hsn : noNaN s = true) (hpn : noNaN p = true) :
    noNaN (jsAssign s p) = true := by
  rw [noNaN_spec] at *
  intro kv hm
  unfold jsAssign at hm
  rcases List.mem_append.mp hm with hm1 | hm2
  · rcases List.mem_map.mp hm1 with ⟨kv0, hkv0, hfeq⟩
    rcases hlp : lookupV p kv0.1 with _ | w
    · rw [hlp] at hfeq
      rw [← hfeq]
      exact hsn kv0 hkv0
    · rw [hlp] at hfeq
      rw [← hfeq]
      exact hpn _ (lookupV_mem hlp)
  · exact hpn kv (List.mem_filter.mp hm2).1

theorem objEq_refl (o : Obj) (hn : nodupKeys o) (hnan : noNaN o = true) :
    objEq o o = true := by
  unfold objEq
  rw [Bool.and_eq_true]
  constructor <;>
  · apply List.all_eq_true.mpr
    intro kv hkv
    rw [lookupV_eq_of_mem_nodup hn hkv]
    exact valEq_refl _ ((noNaN_spec o).mp hnan kv hkv)

theorem jsAssign_absorb (s p : Obj) (hp : nodupKeys p) :
    jsAssign (jsAssign s p) p = jsAssign s p := by
  have hid : ∀ kv ∈ jsAssign s p,
      (match lookupV p kv.1 with
       | some v => ((kv.1 : String), v)
       | none => kv) = kv := by
    intro kv hkv
    rcases hlp : lookupV p kv.1 with _ | w
    · rfl
    · unfold jsAssign at hkv
      rcases List.mem_append.mp hkv with hm1 | hm2
      · rcases List.mem_map.mp hm1 with ⟨kv0, _, hfeq⟩
        rcases hlp0 : lookupV p kv0.1 with _ | w0
        · rw [hlp0] at hfeq
          rw [← hfeq] at hlp
          rw [hlp0] at hlp
          exact absurd hlp (by simp)
        · rw [hlp0] at hfeq
          have hk : kv.1 = kv0.1 := by rw [← hfeq]
          rw [hk] at hlp
          rw [hlp0] at hlp
          have hw : w = w0 := by injection hlp with h2; exact h2.symm
          rw [← hfeq, hw]
      · have hkvp := (List.mem_filter.mp hm2).1
        have := lookupV_eq_of_mem_nodup hp hkvp
        rw [this] at hlp
        have hw : w = kv.2 := by injection hlp with h2; exact h2.symm
        rw [hw]
  have hfil : (p.filter fun kv => (lookupV (jsAssign s p) kv.1).isNone) = [] := by
    apply List.filter_eq_nil.mpr
    intro kv hkv
    rw [lookupV_jsAssign]
    rcases hlp : lookupV p kv.1 with _ | w
    · have := lookupV_isSome_of_mem hkv
      rw [hlp] at this
      simp at this
    · simp [Option.or]
  show ((jsAssign s p).map fun kv =>
      match lookupV p kv.1 with
      | some v => (kv.1, v)
      | none => kv) ++ _ = jsAssign s p
  rw [hfil, List.append_nil]
  calc ((jsAssign s p).map fun kv =>
      match lookupV p kv.1 with
      | some v => ((kv.1 : String), v)
      | none => kv) = (jsAssign s p).map id := List.map_congr_left hid
    _ = jsAssign s p := List.map_id _

theorem setStateObj_eq_pos (st data : Obj) (h : objEq (jsAssign st data) st = true) :
    setStateObj st data = (st, false) := by
  unfold setStateObj
  dsimp only
  rw [if_pos h]

theorem setStateObj_eq_neg (st data : Obj) (h : ¬objEq (jsAssign st data) st = true) :
    setStateObj st data = (jsAssign st data, true) := by
  unfold setStateObj
  dsimp only
  rw [if_neg h]

/-- C5 counterexample: when the partial update does not change the state
(here the state already holds `loading: true`), two successive identical
setState calls publish zero events, not exactly one. -/
theorem setState_twice_counterexample :
    doublePubCount [("loading", Val.vBool true)] [("loading", Val.vBool true)] ≠ 1 ∧
    doublePubCount [("loading", Val.vBool true)] [("loading", Val.vBool true)] = 0 := by
  decide

/-- C5 amended: setState merges the partial over the current state and
publishes a state-set event exactly when the merged object is
deep-unequal to the previous state (the resulting state is always
deep-equal to the merged object); hence two successive setState calls
with the same partial publish the event at most once — exactly once when
the first call changed the state and zero times otherwise. -/
theorem setState_publishes_iff (st data : Obj)
    (hs : nodupKeys st) (hd : nodupKeys data)
    (hsn : noNaN st = true) (hdn : noNaN data = true) :
    ((setStateObj st data).2 = !objEq (jsAssign st data) st) ∧
    objEq (jsAssign st data) (setStateObj st data).1 = true ∧
    doublePubCount st data = if objEq (jsAssign st data) st then 0 else 1 := by
  have hmn : nodupKeys (jsAssign st data) := jsAssign_nodup st data hs hd
  have hmnan : noNaN (jsAssign st data) = true := jsAssign_noNaN st data hsn hdn
  by_cases h : objEq (jsAssign st data) st = true
  · have he := setStateObj_eq_pos st data h
    refine ⟨by rw [he, h]; rfl, by rw [he]; exact h, ?_⟩
    unfold doublePubCount
    rw [he]
    dsimp only
    rw [he]
    simp [h]
  · have he := setStateObj_eq_neg st data h
    have habs : jsAssign (jsAssign st data) data = jsAssign st data :=
      jsAssign_absorb st data hd
    have hrefl : objEq (jsAssign (jsAssign st data) data) (jsAssign st data) = true := by
      rw [habs]
      exact objEq_refl _ hmn hmnan
    have he2 := setStateObj_eq_pos (jsAssign st data) data hrefl
    refine ⟨by rw [he]; simp [Bool.eq_false_iff.mpr h], ?_, ?_⟩
    · rw [he]
      exact objEq_refl _ hmn hmnan
    · unfold doublePubCount
      rw [he]
      dsimp only
      rw [he2, if_neg h]
      simp

/-- Witness for the C5 theorem at a concrete state and partial. -/
theorem setState_publishes_iff_witness :
    (nodupKeys [(("loading" : String), Val.vBool false)] ∧
     nodupKeys [(("loading" : String), Val.vBool true)] ∧
     noNaN [(("loading" : String), Val.vBool false)] = true ∧
     noNaN [(("loading" : String), Val.vBool true)] = true) ∧
    ((setStateObj [(("loading" : String), Val.vBool false)]
        [(("loading" : String), Val.vBool true)]).2 =
      !objEq (jsAssign [(("loading" : String), Val.vBool false)]
        [(("loading" : String), Val.vBool true)])
        [(("loading" : String), Val.vBool false)]) ∧
    objEq (jsAssign [(("loading" : String), Val.vBool false)]
        [(("loading" : String), Val.vBool true)])
      (setStateObj [(("loading" : String), Val.vBool false)]
        [(("loading" : String), Val.vBool true)]).1 = true ∧
    doublePubCount [(("loading" : String), Val.vBool false)]
        [(("loading" : String), Val.vBool true)] =
      if objEq (jsAssign [(("loading" : String), Val.vBool false)]
          [(("loading" : String), Val.vBool true)])
          [(("loading" : String), Val.vBool false)] then 0 else 1 :=
  ⟨⟨by decide, by decide, by decide, by decide⟩,
   setState_publishes_iff [(("loading" : String), Val.vBool false)]
     [(("loading" : String), Val.vBool true)]
     (by decide) (by decide) (by decide) (by decide)⟩

theorem lookupN_cons (kv : String × Nat) (rest : List (String × Nat)) (k : String) :
    lookupN (kv :: rest) k = if kv.1 = k then some kv.2 else lookupN rest k := rfl

theorem cacheFetch_stable (st : CacheState) (c1 c2 r : String) (v : Nat)
    (h : lookupN st.requests r = some v) :
    lookupN (cacheFetch st c1 c2).2.requests r = some v := by
  unfold cacheFetch
  rcases hl : lookupN st.requests c1 with _ | rid
  · dsimp only
    rw [lookupN_cons]
    by_cases hk : c1 = r
    · rw [hk] at hl
      rw [hl] at h
      cases h
    · rw [if_neg hk]
      exact h
  · exact h

theorem cacheFetch_lookup_self (st : CacheState) (c1 c2 : String) :
    lookupN (cacheFetch st c1 c2).2.requests c1 =
      some (cacheFetch st c1 c2).1.respId := by
  unfold cacheFetch
  rcases hl : lookupN st.requests c1 with _ | rid
  · dsimp only
    rw [lookupN_cons, if_pos rfl]
  · dsimp only
    exact hl

theorem cacheRun_snd_cons (st : CacheState) (c : String × String)
    (rest : List (String × String)) :
    (cacheRun st (c :: rest)).2 = (cacheRun (cacheFetch st c.1 c.2).2 rest).2 := rfl

theorem cacheRun_fst_cons (st : CacheState) (c : String × String)
    (rest : List (String × String)) :
    (cacheRun st (c :: rest)).1 =
      (cacheFetch st c.1 c.2).1 :: (cacheRun (cacheFetch st c.1 c.2).2 rest).1 := rfl

theorem cacheRun_stable (calls : List (String × String)) (st : CacheState)
    (r : String) (v : Nat) (h : lookupN st.requests r = some v) :
    lookupN (cacheRun st calls).2.requests r = some v := by
  induction calls generalizing st with
  | nil => exact h
  | cons c rest ih =>
    rw [cacheRun_snd_cons]
    exact ih _ (cacheFetch_stable st c.1 c.2 r v h)

theorem cacheRun_result_respId (calls : List (String × String)) (st : CacheState)
    (i : Nat) (res : CloneRes) (c : String × String)
    (hres : (cacheRun st calls).1[i]? = some res)
    (hc : calls[i]? = some c) :
    lookupN (cacheRun st calls).2.requests c.1 = some res.respId := by
  induction calls generalizing st i with
  | nil => simp at hc
  | cons c0 rest ih =>
    cases i with
    | zero =>
      rw [cacheRun_fst_cons] at hres
      simp only [List.getElem?_cons_zero, Option.some_inj] at hres hc
      rw [cacheRun_snd_cons, ← hc, ← hres]
      exact cacheRun_stable rest _ c0.1 _ (cacheFetch_lookup_self st c0.1 c0.2)
    | succ k =>
      rw [cacheRun_fst_cons] at hres
      simp only [List.getElem?_cons_succ] at hres hc
      rw [cacheRun_snd_cons]
      exact ih _ k hres hc

theorem cacheFetch_nextClone (st : CacheState) (c1 c2 : String) :
    (cacheFetch st c1 c2).2.nextClone = st.nextClone + 1 ∧
    (cacheFetch st c1 c2).1.cloneId = st.nextClone := by
  unfold cacheFetch
  rcases lookupN st.requests c1 with _ | rid <;> exact ⟨rfl, rfl⟩

theorem cacheRun_cloneIds (calls : List (String × String)) (st : CacheState)
    (i : Nat) (res : CloneRes)
    (hres : (cacheRun st calls).1[i]? = some res) :
    res.cloneId = st.nextClone + i := by
  induction calls generalizing st i with
  | nil => simp [cacheRun] at hres
  | cons c0 rest ih =>
    cases i with
    | zero =>
      rw [cacheRun_fst_cons] at hres
      simp only [List.getElem?_cons_zero, Option.some_inj] at hres
      rw [← hres, (cacheFetch_nextClone st c0.1 c0.2).2]
      omega
    | succ k =>
      rw [cacheRun_fst_cons] at hres
      simp only [List.getElem?_cons_succ] at hres
      have h2 := ih (cacheFetch st c0.1 c0.2).2 k hres
      rw [h2, (cacheFetch_nextClone st c0.1 c0.2).1]
      omega

theorem cacheFetch_inv (st : CacheState) (c1 c2 : String)
    (h : ∀ r, (st.netLog.filter fun c => c.1 = r).length =
          if (lookupN st.requests r).isSome then 1 else 0) :
    ∀ r, ((cacheFetch st c1 c2).2.netLog.filter fun c => c.1 = r).length =
          if (lookupN (cacheFetch st c1 c2).2.requests r).isSome then 1 else 0 := by
  intro r
  unfold cacheFetch
  rcases hl : lookupN st.requests c1 with _ | rid
  · dsimp only
    rw [List.filter_append, List.length_append, lookupN_cons]
    by_cases hk : c1 = r
    · subst hk
      rw [if_pos rfl]
      simp [h c1, hl]
    · rw [if_neg hk]
      have hz : (([(c1, c2)] : List (String × String)).filter fun c => c.1 = r).length
          = 0 := by simp [hk]
      rw [hz, h r]
      simp
  · dsimp only
    exact h r

theorem cacheRun_inv (calls : List (String × String)) (st : CacheState)
    (h : ∀ r, (st.netLog.filter fun c => c.1 = r).length =
          if (lookupN st.requests r).isSome then 1 else 0) :
    ∀ r, ((cacheRun st calls).2.netLog.filter fun c => c.1 = r).length =
          if (lookupN (cacheRun st calls).2.requests r).isSome then 1 else 0 := by
  induction calls generalizing st with
  | nil => exact h
  | cons c rest ih =>
    intro r
    rw [cacheRun_snd_cons]
    exact ih _ (cacheFetch_inv st c.1 c.2 h) r

theorem cacheRun_per_request (calls : List (String × String)) (r : String) :
    ((cacheRun emptyCache calls).2.netLog.filter fun c => c.1 = r).length ≤ 1 := by
  have h := cacheRun_inv calls emptyCache
    (by intro r2; simp [emptyCache, lookupN]) r
  rw [h]
  split <;> omega

/-- C4: over any sequence of `fetch(request, method)` calls against one
request cache (one page session), at most one apiFetch network call is
issued per composite key — in fact at most one per request string, the
only key the cache actually uses — and any two calls with the same
composite key receive fresh, distinct clones of one and the same
response. -/
theorem cache_one_network_call_per_key (calls : List (String × String))
    (req : String) (i j : Nat) (ri rj : CloneRes) (ci cj : String × String)
    (hi : (cacheRun emptyCache calls).1[i]? = some ri)
    (hj : (cacheRun emptyCache calls).1[j]? = some rj)
    (hci : calls[i]? = some ci) (hcj : calls[j]? = some cj)
    (hsame : ci = cj) :
    (∀ meth, ((cacheRun emptyCache calls).2.netLog.filter
       fun c => c = (req, meth)).length ≤ 1) ∧
    ((cacheRun emptyCache calls).2.netLog.filter
       fun c => c.1 = req).length ≤ 1 ∧
    ri.respId = rj.respId ∧
    (i ≠ j → ri.cloneId ≠ rj.cloneId) := by
  refine ⟨?_, cacheRun_per_request calls req, ?_, ?_⟩
  · intro meth
    calc ((cacheRun emptyCache calls).2.netLog.filter
        fun c => c = (req, meth)).length
        ≤ ((cacheRun emptyCache calls).2.netLog.filter
        fun c => c.1 = req).length := by
          rw [← List.countP_eq_length_filter, ← List.countP_eq_length_filter]
          apply List.countP_mono_left
          intro c _ hc
          simp only [decide_eq_true_eq] at hc
          rw [hc]
          simp
      _ ≤ 1 := cacheRun_per_request calls req
  · have h1 := cacheRun_result_respId calls emptyCache i ri ci hi hci
    have h2 := cacheRun_result_respId calls emptyCache j rj cj hj hcj
    rw [hsame] at h1
    rw [h1] at h2
    injection h2
  · intro hne
    have h1 := cacheRun_cloneIds calls emptyCache i ri hi
    have h2 := cacheRun_cloneIds calls emptyCache j rj hj
    intro heq
    rw [h1, h2] at heq
    omega

/-- Witness for the C4 theorem: two identical calls against a fresh
cache. -/
theorem cache_one_network_call_per_key_witness :
    ((cacheRun emptyCache
        [("wp/v2/posts?page=1", "GET"), ("wp/v2/posts?page=1", "GET")]).1[0]? =
      some ⟨0, 0⟩) ∧
    ((cacheRun emptyCache
        [("wp/v2/posts?page=1", "GET"), ("wp/v2/posts?page=1", "GET")]).1[1]? =
      some ⟨0, 1⟩) ∧
    (∀ meth, ((cacheRun emptyCache
        [("wp/v2/posts?page=1", "GET"), ("wp/v2/posts?page=1", "GET")]).2.netLog.filter
       fun c => c = ("wp/v2/posts?page=1", meth)).length ≤ 1) ∧
    ((0 : Nat) ≠ 1 → (⟨0, 0⟩ : CloneRes).cloneId ≠ (⟨0, 1⟩ : CloneRes).cloneId) :=
  ⟨by decide, by decide,
   (cache_one_network_call_per_key
     [("wp/v2/posts?page=1", "GET"), ("wp/v2/posts?page=1", "GET")]
     "wp/v2/posts?page=1" 0 1 ⟨0, 0⟩ ⟨0, 1⟩
     ("wp/v2/posts?page=1", "GET") ("wp/v2/posts?page=1", "GET")
     (by decide) (by decide) (by decide) (by decide) rfl).1,
   (cache_one_network_call_per_key
     [("wp/v2/posts?page=1", "GET"), ("wp/v2/posts?page=1", "GET")]
     "wp/v2/posts?page=1" 0 1 ⟨0, 0⟩ ⟨0, 1⟩
     ("wp/v2/posts?page=1", "GET") ("wp/v2/posts?page=1", "GET")
     (by decide) (by decide) (by decide) (by decide) rfl).2.2.2⟩

theorem splitCommaL_ne_nil (l : List Char) : splitCommaL l ≠ [] := by
  induction l with
  | nil => simp [splitCommaL]
  | cons c rest ih =>
    unfold splitCommaL
    by_cases hc : c = ','
    · simp [hc]
    · rcases hr : splitCommaL rest with _ | ⟨h, t⟩ <;> simp [hc, hr]

theorem splitCommaL_no_comma (l : List Char) :
    ∀ p ∈ splitCommaL l, (',' : Char) ∉ p := by
  induction l with
  | nil =>
    intro p hp
    simp [splitCommaL] at hp
    simp [hp]
  | cons c rest ih =>
    intro p hp
    unfold splitCommaL at hp
    by_cases hc : c = ','
    · rw [if_pos hc] at hp
      rcases List.mem_cons.mp hp with h1 | h2
      · simp [h1]
      · exact ih p h2
    · rw [if_neg hc] at hp
      rcases hr : splitCommaL rest with _ | ⟨h, t⟩
      · exact absurd hr (splitCommaL_ne_nil rest)
      · rw [hr] at hp
        rcases List.mem_cons.mp hp with h1 | h2
        · subst h1
          intro hmem
          rcases List.mem_cons.mp hmem with h3 | h4
          · exact hc h3.symm
          · exact ih h (hr ▸ List.mem_cons_self h t) h4
        · exact ih p (hr ▸ List.mem_cons_of_mem h h2)

theorem splitCommaL_comma_cons (rest : List Char) :
    splitCommaL (',' :: rest) = [] :: splitCommaL rest := by
  simp [splitCommaL]

theorem splitCommaL_append (x rest : List Char) (hx : (',' : Char) ∉ x)
    (h : List Char) (t : List (List Char)) (hrest : splitCommaL rest = h :: t) :
    splitCommaL (x ++ rest) = (x ++ h) :: t := by
  induction x with
  | nil => simpa using hrest
  | cons c x2 ih =>
    have hc : c ≠ ',' := by
      intro hcc
      exact hx (hcc ▸ List.mem_cons_self c x2)
    have hx2 : (',' : Char) ∉ x2 := fun hm => hx (List.mem_cons_of_mem c hm)
    show splitCommaL (c :: (x2 ++ rest)) = ((c :: x2) ++ h) :: t
    unfold splitCommaL
    rw [if_neg hc, ih hx2]
    rfl

theorem joinL_roundtrip (l : List (List Char)) (hne : l ≠ [])
    (h : ∀ p ∈ l, (',' : Char) ∉ p) : splitCommaL (joinL l) = l := by
  induction l with
  | nil => exact absurd rfl hne
  | cons x rest ih =>
    cases rest with
    | nil =>
      show splitCommaL (joinL [x]) = [x]
      have hx : (',' : Char) ∉ x := h x (List.mem_cons_self x [])
      have : joinL [x] = x ++ [] := by simp [joinL]
      rw [this, splitCommaL_append x [] hx [] [] rfl]
      simp
    | cons y t =>
      have hx : (',' : Char) ∉ x := h x (List.mem_cons_self _ _)
      have hrest : splitCommaL (joinL (y :: t)) = y :: t :=
        ih (by simp) (fun p hp => h p (List.mem_cons_of_mem x hp))
      show splitCommaL (x ++ ',' :: joinL (y :: t)) = x :: y :: t
      rw [splitCommaL_append x (',' :: joinL (y :: t)) hx []
        (splitCommaL (joinL (y :: t)))
        (splitCommaL_comma_cons (joinL (y :: t))), hrest, List.append_nil]

theorem joinL_append_single (xs : List (List Char)) (y : List Char)
    (hne : xs ≠ []) : joinL (xs ++ [y]) = joinL xs ++ ',' :: y := by
  induction xs with
  | nil => exact absurd rfl hne
  | cons x rest ih =>
    cases rest with
    | nil => simp [joinL]
    | cons z t =>
      show joinL (x :: z :: (t ++ [y])) = (x ++ ',' :: joinL (z :: t)) ++ ',' :: y
      have hzt : (z :: t : List (List Char)) ≠ [] := by simp
      have step1 : joinL (x :: z :: (t ++ [y])) = x ++ ',' :: joinL (z :: (t ++ [y])) := rfl
      have step2 : joinL (z :: (t ++ [y])) = joinL ((z :: t) ++ [y]) := rfl
      rw [step1, step2, ih hzt]
      simp

theorem splitTax_joinTax (l : List String) (hne : l ≠ [])
    (h : ∀ s ∈ l, s.data ≠ [] ∧ (',' : Char) ∉ s.data) :
    splitTax (joinTax l) = l := by
  unfold splitTax joinTax
  have hdata : (String.mk (joinL (l.map String.data))).data = joinL (l.map String.data) := rfl
  rw [hdata, joinL_roundtrip (l.map String.data)
    (by simpa using hne)
    (by
      intro p hp
      rcases List.mem_map.mp hp with ⟨s, hs, hsd⟩
      rw [← hsd]
      exact (h s hs).2)]
  have hfil : (l.map String.data).filter (fun p => p ≠ []) = l.map String.data := by
    rw [List.filter_eq_self]
    intro p hp
    rcases List.mem_map.mp hp with ⟨s, hs, hsd⟩
    simpa [← hsd] using (h s hs).1
  rw [hfil, List.map_map]
  have : (fun p => String.mk p) ∘ String.data = id := by
    funext s
    rfl
  rw [this, List.map_id]

theorem splitTax_elems (s : String) :
    ∀ x ∈ splitTax s, x.data ≠ [] ∧ (',' : Char) ∉ x.data := by
  intro x hx
  unfold splitTax at hx
  rcases List.mem_map.mp hx with ⟨p, hp, hpx⟩
  have hp1 := (List.mem_filter.mp hp).1
  have hp2 := (List.mem_filter.mp hp).2
  constructor
  · rw [← hpx]
    simpa using hp2
  · rw [← hpx]
    exact splitCommaL_no_comma s.data p hp1

theorem lookupV_eq_none_of_not_mem {o : Obj} {k : String} (h : k ∉ objKeys o) :
    lookupV o k = none := by
  induction o with
  | nil => rfl
  | cons kv rest ih =>
    rw [lookupV_cons, if_neg, ih]
    · intro hm
      exact h (List.mem_cons_of_mem _ hm)
    · intro hk
      exact h (hk ▸ List.mem_cons_self _ _)

theorem lookupV_filter_val (o : Obj) (c : Val → Bool) (k : String)
    (hn : nodupKeys o) :
    lookupV (o.filter fun kv => c kv.2) k =
      match lookupV o k with
      | some v => if c v then some v else none
      | none => none := by
  induction o with
  | nil => rfl
  | cons kv rest ih =>
    have hn2 : nodupKeys rest := (List.nodup_cons.mp hn).2
    have hnot : kv.1 ∉ rest.map Prod.fst := (List.nodup_cons.mp hn).1
    by_cases hk : kv.1 = k
    · subst hk
      have hrest : lookupV rest kv.1 = none := lookupV_eq_none_of_not_mem hnot
      by_cases hc : c kv.2
      · simp [List.filter_cons, hc, lookupV_cons]
      · simp [List.filter_cons, hc, lookupV_cons, ih hn2, hrest]
    · by_cases hc : c kv.2
      · simp [List.filter_cons, hc, lookupV_cons, hk, ih hn2]
      · simp [List.filter_cons, hc, lookupV_cons, hk, ih hn2]

theorem nodupKeys_filter (o : Obj) (c : String × Val → Bool) (hn : nodupKeys o) :
    nodupKeys (o.filter c) :=
  List.Nodup.sublist (List.Sublist.map _ (List.filter_sublist _)) hn

theorem nodupKeys_single (k : String) (v : Val) : nodupKeys [(k, v)] := by
  simp [nodupKeys]

theorem lookupV_setQueryParams (p q : Obj) (k : String)
    (hn : nodupKeys p) (hq : nodupKeys q) :
    lookupV (setQueryParams p q) k =
      match (lookupV q k).or (lookupV p k) with
      | some v => if isEmptyStrVal v then none else some v
      | none => none := by
  unfold setQueryParams
  rw [lookupV_filter_val (jsAssign p q) (fun v => !(isEmptyStrVal v)) k
    (jsAssign_nodup p q hn hq), lookupV_jsAssign]
  rcases (lookupV q k).or (lookupV p k) with _ | v
  · rfl
  · by_cases he : isEmptyStrVal v <;> simp [he]

theorem setQueryParams_nodup (p q : Obj) (hn : nodupKeys p) (hq : nodupKeys q) :
    nodupKeys (setQueryParams p q) :=
  nodupKeys_filter _ _ (jsAssign_nodup p q hn hq)

theorem lookupV_single_self (k : String) (v : Val) :
    lookupV [(k, v)] k = some v := by
  rw [lookupV_cons, if_pos rfl]

theorem joinTax_nil : joinTax [] = "" := rfl

theorem joinTax_single (s : String) : joinTax [s] = s := rfl

theorem splitTax_empty : splitTax "" = [] := by decide

theorem splitTax_single (s : String) (h1 : s.data ≠ [])
    (h2 : (',' : Char) ∉ s.data) : splitTax s = [s] := by
  have := splitTax_joinTax [s] (by simp) (by simpa using ⟨h1, h2⟩)
  rwa [joinTax_single] at this

theorem data_ne_nil_of_ne_empty {s : String} (h : s ≠ "") : s.data ≠ [] :=
  fun hd => h (String.ext hd)

theorem ne_empty_of_data_ne_nil {s : String} (h : s.data ≠ []) : s ≠ "" :=
  fun he => h (by rw [he])

theorem isEmptyStrVal_iff (s : String) :
    isEmptyStrVal (.vStr s) = true ↔ s = "" := by
  unfold isEmptyStrVal
  constructor
  · intro h
    have hl : s.length = 0 := by simpa using h
    have : s.data = [] := List.length_eq_zero.mp hl
    exact String.ext this
  · intro h
    subst h
    rfl

theorem joinTax_append_single (xs : List String) (y : String) (hne : xs ≠ []) :
    (joinTax (xs ++ [y])).data = (joinTax xs).data ++ ',' :: y.data := by
  unfold joinTax
  show joinL ((xs ++ [y]).map String.data) = _
  rw [List.map_append]
  show joinL (xs.map String.data ++ [y.data]) = _
  rw [joinL_append_single _ _ (by simpa using hne)]

theorem taxToggleParams_eq (params : Obj) (tax slug v : String)
    (hl : lookupV params tax = some (.vStr v) ∨
      (lookupV params tax = none ∧ v = "")) :
    taxToggleParams params tax slug =
      (if joinTax (splitTax v) =
          joinTax (if slug ∈ splitTax v
            then (splitTax v).filter (fun s => s ≠ slug)
            else splitTax v ++ [slug])
       then some params
       else some (setQueryParams params
         [(tax, .vStr (joinTax (if slug ∈ splitTax v
            then (splitTax v).filter (fun s => s ≠ slug)
            else splitTax v ++ [slug])))])) := by
  unfold taxToggleParams
  rcases hl with h | ⟨h, hv⟩
  · rw [h]
  · rw [h, hv]

theorem taxToggleParams_add (params : Obj) (tax slug v : String)
    (hl : lookupV params tax = some (.vStr v) ∨
      (lookupV params tax = none ∧ v = ""))
    (hnotin : slug ∉ splitTax v)
    (hne : joinTax (splitTax v) ≠ joinTax (splitTax v ++ [slug])) :
    taxToggleParams params tax slug =
      some (setQueryParams params
        [(tax, .vStr (joinTax (splitTax v ++ [slug])))]) := by
  rw [taxToggleParams_eq params tax slug v hl, if_neg hnotin, if_neg hne]

theorem taxToggleParams_remove (params : Obj) (tax slug v : String)
    (hl : lookupV params tax = some (.vStr v) ∨
      (lookupV params tax = none ∧ v = ""))
    (hin : slug ∈ splitTax v)
    (hne : joinTax (splitTax v) ≠
      joinTax ((splitTax v).filter (fun s => s ≠ slug))) :
    taxToggleParams params tax slug =
      some (setQueryParams params
        [(tax, .vStr (joinTax ((splitTax v).filter (fun s => s ≠ slug))))]) := by
  rw [taxToggleParams_eq params tax slug v hl, if_pos hin, if_neg hne]

theorem lookupV_setQueryParams_single (p : Obj) (tax : String) (v : String)
    (hn : nodupKeys p) :
    lookupV (setQueryParams p [(tax, .vStr v)]) tax =
      if v = "" then none else some (.vStr v) := by
  rw [lookupV_setQueryParams p [(tax, .vStr v)] tax hn (nodupKeys_single tax _),
    lookupV_single_self]
  show (if isEmptyStrVal (.vStr v) = true then none else some (Val.vStr v)) = _
  by_cases hv : v = ""
  · rw [if_pos ((isEmptyStrVal_iff v).mpr hv), if_pos hv]
  · rw [if_neg (fun hc => hv ((isEmptyStrVal_iff v).mp hc)), if_neg hv]

/-- C7 counterexample: with parameter value "a,b", toggling the checkbox
slug "a" twice (shouldToggle = true) yields "b,a", not the original
"a,b" — removing a non-final slug and re-adding it appends it at the
end. -/
theorem taxToggle_twice_counterexample :
    taxToggleTwice [("category", Val.vStr "a,b")] "category" "a" =
      some [("category", Val.vStr "b,a")] ∧
    (taxToggleTwice [("category", Val.vStr "a,b")] "category" "a").bind
      (fun pf => lookupV pf "category") ≠ some (Val.vStr "a,b") := by
  decide

/-- C7 amended: toggling the same checkbox slug twice restores the
taxonomy parameter to its original value whenever the slug is not
already active and the stored value is a normalised comma-joined list
(an absent value counts as the empty list; an add then a remove cancel
out, with an all-slugs-removed value being deleted from the parameters
exactly as an original absence).  When the slug is already active but
not last in the list, the pair of toggles instead moves it to the end,
as the counterexample shows. -/
theorem taxToggle_twice_restores (params : Obj) (tax slug : String)
    (hnd : nodupKeys params)
    (hs1 : slug.data ≠ []) (hs2 : (',' : Char) ∉ slug.data)
    (hval : match lookupV params tax with
            | none => True
            | some (.vStr v) =>
                v ≠ "" ∧ joinTax (splitTax v) = v ∧ slug ∉ splitTax v
            | some _ => False) :
    ∃ pf, taxToggleTwice params tax slug = some pf ∧
          lookupV pf tax = lookupV params tax := by
  have hslug_ne : slug ≠ "" := ne_empty_of_data_ne_nil hs1
  rcases hcase : lookupV params tax with _ | val
  · -- parameter absent: add slug, then remove it again; the empty joined
    -- value is deleted by setQuery, restoring absence
    have hne1 : joinTax (splitTax "") ≠ joinTax (splitTax "" ++ [slug]) := by
      rw [splitTax_empty]
      show joinTax [] ≠ joinTax [slug]
      rw [joinTax_nil, joinTax_single]
      exact fun hc => hslug_ne hc.symm
    have hstep1 := taxToggleParams_add params tax slug ""
      (Or.inr ⟨hcase, rfl⟩) (by rw [splitTax_empty]; simp) hne1
    rw [splitTax_empty] at hstep1
    have hjoin1 : joinTax ([] ++ [slug]) = slug := by
      show joinTax [slug] = slug
      rfl
    rw [hjoin1] at hstep1
    have hp1nd : nodupKeys (setQueryParams params [(tax, .vStr slug)]) :=
      setQueryParams_nodup params _ hnd (nodupKeys_single tax _)
    have hp1 : lookupV (setQueryParams params [(tax, .vStr slug)]) tax =
        some (.vStr slug) := by
      rw [lookupV_setQueryParams_single params tax slug hnd, if_neg hslug_ne]
    have hsplit2 : splitTax slug = [slug] := splitTax_single slug hs1 hs2
    have hin2 : slug ∈ splitTax slug := by rw [hsplit2]; simp
    have hfil2 : (splitTax slug).filter (fun s => s ≠ slug) = [] := by
      rw [hsplit2]
      simp
    have hne2 : joinTax (splitTax slug) ≠
        joinTax ((splitTax slug).filter (fun s => s ≠ slug)) := by
      rw [hfil2, hsplit2, joinTax_single, joinTax_nil]
      exact hslug_ne
    have hstep2 := taxToggleParams_remove
      (setQueryParams params [(tax, .vStr slug)]) tax slug slug
      (Or.inl hp1) hin2 hne2
    rw [hfil2, joinTax_nil] at hstep2
    refine ⟨setQueryParams (setQueryParams params [(tax, Val.vStr slug)])
      [(tax, Val.vStr "")], ?_, ?_⟩
    · unfold taxToggleTwice
      rw [hstep1]
      exact hstep2
    · rw [lookupV_setQueryParams_single _ tax "" hp1nd, if_pos rfl]
  · -- parameter present: by hval it is a nonempty normalised string list
    -- not containing the slug
    rcases val with v | n | b | _
    case vStr =>
      rw [hcase] at hval
      rcases hval with ⟨hv_ne, hnorm, hnotin⟩
      have hcur_ne : splitTax v ≠ [] := by
        intro hc
        rw [hc, joinTax_nil] at hnorm
        exact hv_ne hnorm.symm
      have hv1data : (joinTax (splitTax v ++ [slug])).data =
          v.data ++ ',' :: slug.data := by
        rw [joinTax_append_single _ _ hcur_ne, hnorm]
      have hne1 : joinTax (splitTax v) ≠ joinTax (splitTax v ++ [slug]) := by
        rw [hnorm]
        intro hc
        have : v.data = v.data ++ ',' :: slug.data := by
          rw [← hv1data, ← hc]
        have hlen := congrArg List.length this
        simp at hlen
      have hstep1 := taxToggleParams_add params tax slug v
        (Or.inl hcase) hnotin hne1
      have hv1_ne : joinTax (splitTax v ++ [slug]) ≠ "" := by
        apply ne_empty_of_data_ne_nil
        rw [hv1data]
        simp
      have hp1nd : nodupKeys (setQueryParams params
          [(tax, .vStr (joinTax (splitTax v ++ [slug])))]) :=
        setQueryParams_nodup params _ hnd (nodupKeys_single tax _)
      have hp1 : lookupV (setQueryParams params
          [(tax, .vStr (joinTax (splitTax v ++ [slug])))]) tax =
          some (.vStr (joinTax (splitTax v ++ [slug]))) := by
        rw [lookupV_setQueryParams_single params tax _ hnd, if_neg hv1_ne]
      have hsplit2 : splitTax (joinTax (splitTax v ++ [slug])) =
          splitTax v ++ [slug] := by
        apply splitTax_joinTax
        · simp
        · intro s hs
          rcases List.mem_append.mp hs with hmem | hmem
          · exact splitTax_elems v s hmem
          · have : s = slug := by simpa using hmem
            rw [this]
            exact ⟨hs1, hs2⟩
      have hin2 : slug ∈ splitTax (joinTax (splitTax v ++ [slug])) := by
        rw [hsplit2]
        simp
      have hfil2 : (splitTax (joinTax (splitTax v ++ [slug]))).filter
          (fun s => s ≠ slug) = splitTax v := by
        rw [hsplit2, List.filter_append]
        have h1 : (splitTax v).filter (fun s => s ≠ slug) = splitTax v := by
          rw [List.filter_eq_self]
          intro x hx
          simp only [ne_eq, decide_not]
          simp
          intro hc
          exact hnotin (hc ▸ hx)
        have h2 : ([slug] : List String).filter (fun s => s ≠ slug) = [] := by
          simp
        rw [h1, h2, List.append_nil]
      have hne2 : joinTax (splitTax (joinTax (splitTax v ++ [slug]))) ≠
          joinTax ((splitTax (joinTax (splitTax v ++ [slug]))).filter
            (fun s => s ≠ slug)) := by
        rw [hfil2, hsplit2]
        exact fun hc => hne1 hc.symm
      have hstep2 := taxToggleParams_remove
        (setQueryParams params [(tax, .vStr (joinTax (splitTax v ++ [slug])))])
        tax slug (joinTax (splitTax v ++ [slug]))
        (Or.inl hp1) hin2 hne2
      rw [hfil2, hnorm] at hstep2
      refine ⟨setQueryParams (setQueryParams params
        [(tax, Val.vStr (joinTax (splitTax v ++ [slug])))]) [(tax, Val.vStr v)],
        ?_, ?_⟩
      · unfold taxToggleTwice
        rw [hstep1]
        exact hstep2
      · rw [lookupV_setQueryParams_single _ tax v hp1nd, if_neg hv_ne]
    case vInt => rw [hcase] at hval; exact absurd hval (by simp)
    case vBool => rw [hcase] at hval; exact absurd hval (by simp)
    case vNaN => rw [hcase] at hval; exact absurd hval (by simp)

/-- Witness for the C7 theorem: toggling the not-yet-active slug "c" twice
on the normalised value "a,b" restores "a,b". -/
theorem taxToggle_twice_restores_witness :
    (nodupKeys [(("category" : String), Val.vStr "a,b")] ∧
     ("c" : String).data ≠ [] ∧ (',' : Char) ∉ ("c" : String).data ∧
     (match lookupV [(("category" : String), Val.vStr "a,b")] "category" with
      | none => True
      | some (.vStr v) =>
          v ≠ "" ∧ joinTax (splitTax v) = v ∧ "c" ∉ splitTax v
      | some _ => False)) ∧
    (∃ pf, taxToggleTwice [(("category" : String), Val.vStr "a,b")] "category" "c" =
        some pf ∧
      lookupV pf "category" =
        lookupV [(("category" : String), Val.vStr "a,b")] "category") :=
  ⟨⟨by decide, by decide, by decide,
    (by decide : ("a,b" : String) ≠ "" ∧ joinTax (splitTax "a,b") = "a,b" ∧
      ("c" : String) ∉ splitTax "a,b")⟩,
   taxToggle_twice_restores [(("category" : String), Val.vStr "a,b")] "category" "c"
     (by decide) (by decide) (by decide)
     (by decide : ("a,b" : String) ≠ "" ∧ joinTax (splitTax "a,b") = "a,b" ∧
      ("c" : String) ∉ splitTax "a,b")⟩

end SearchView
